import Mathlib

/-!
Shallow embedding of the lesson-scheduling core of the Dryvo backend
(`server/api/blueprints/lessons.py`) and proofs about its claims.

Dates are modelled as natural numbers (a totally ordered timestamp is all the
code uses: it parses, compares and stores dates).  The relational store is an
explicit `DB` value threaded through the operations; each HTTP endpoint
becomes a function from the current state and request data to
`Except LessonErr` of the result.  ORM model classes (`Lesson`, `Teacher`,
`Student`, `Topic`, …) are not part of the examined sources; where one of
their methods decides behaviour it is modelled from the spec and marked so.
-/

namespace Dryvo

/-- A `LessonTopic` association row: a topic attached to a lesson with a
finished/in-progress flag. -/
structure LessonTopic where
  topic_id : Nat
  is_finished : Bool
deriving DecidableEq, Repr

/-- A curriculum `Topic`.  Modelled from the spec: a topic carries an ordinal
range indicating which lesson numbers it applies to. -/
structure Topic where
  id : Nat
  min_lesson_number : Nat
  max_lesson_number : Nat
deriving DecidableEq, Repr

/-- A `Teacher`.  `lesson_duration` is the default duration used by
`get_lesson_data`.  `available_hours` is the Availability Calculator, modelled
from the spec as a capability of the teacher: given a target date it yields
the sequence of (slot-start, slot-label) pairs of open hour slots (its
implementation is outside the examined sources; the code only scans the
sequence for a pair whose slot-start equals the requested date). -/
structure Teacher where
  id : Nat
  user_id : Nat
  lesson_duration : Nat
  available_hours : Nat → List (Nat × String)

/-- A `Student`; `teacher` is the student's assigned teacher
(`user.student.teacher` in the code). -/
structure Student where
  id : Nat
  user_id : Nat
  teacher : Teacher

/-- A `User` with its optional student / teacher role records
(`user.student`, `user.teacher`). -/
structure User where
  id : Nat
  student : Option Student
  teacher : Option Teacher

/-- A persisted `Lesson` row. -/
structure Lesson where
  id : Nat
  date : Nat
  duration : Nat
  teacher_id : Nat
  student_id : Option Nat
  meetup_place : Option String
  dropoff_place : Option String
  price : Option Int
  comments : Option String
  is_approved : Bool
  deleted : Bool
  creator_id : Nat
  topics : List LessonTopic
deriving DecidableEq, Repr

/-- The relational store: the lesson table, the student table (for
`Student.get_by_id`), the topic table, and the id counter for inserts. -/
structure DB where
  lessons : List Lesson
  students : List Student
  topicsTable : List Topic
  nextId : Nat

/-- The JSON body of a create/update request.  `date := none` models a missing
or empty date field; the other fields are the raw request values. -/
structure RequestData where
  date : Option Nat
  duration : Option Nat
  student_id : Option Nat
  meetup_place : Option String
  dropoff_place : Option String
  price : Option String
  comments : Option String
deriving DecidableEq, Repr

/-- Failure of an endpoint: a `RouteError` with message and HTTP status, or an
unhandled Python exception from reading a local variable that was never
assigned (`UnboundLocalError`). -/
inductive LessonErr where
  | routeError (msg : String) (status : Nat)
  | unboundLocal (name : String)
deriving DecidableEq, Repr

/-- The dict returned by `get_lesson_data`. -/
structure LessonData where
  date : Nat
  meetup_place : Option String
  dropoff_place : Option String
  student : Student
  teacher : Teacher
  duration : Nat
  price : Option Int
  comments : Option String
  is_approved : Bool

/-- Value of a run of decimal digits, `none` when the run is empty or holds a
non-digit. -/
def digitsVal (cs : List Char) : Option Nat :=
  if cs ≠ [] ∧ cs.all (·.isDigit) then
    some (cs.foldl (fun a c => a * 10 + (c.toNat - 48)) 0)
  else none

/-- Model of Python `int()` applied to a string: surrounding blanks are
ignored, then an optional sign followed by one or more decimal digits;
any other input raises `ValueError`, modelled as `none`. -/
def pythonInt (s : String) : Option Int :=
  let cs := ((s.toList.dropWhile (· = ' ')).reverse.dropWhile (· = ' ')).reverse
  match cs with
  | [] => none
  | c :: rest =>
    if c = '-' then (digitsVal rest).map (fun n => -(n : Int))
    else if c = '+' then (digitsVal rest).map (fun n => (n : Int))
    else (digitsVal cs).map (fun n => (n : Int))

/-- `int(data.get("price", ""))` with `ValueError` mapped to `None`. -/
def parsePrice (price : Option String) : Option Int :=
  pythonInt (price.getD "")

/-- `Place.create_or_find`.  Modelled from the spec: the Place Resolver maps a
free-text label to a deduplicated place record scoped to the student; we
represent the resolved record by its label (type and student are fixed by the
call site), and no label resolves to no place. -/
def create_or_find (label : Option String) (_s : Student) : Option String :=
  label

/-- `handle_places` from the source: resolves meetup/dropoff labels when a
student is present. -/
def handle_places (meetup dropoff : Option String) (student : Option Student) :
    Option String × Option String :=
  match student with
  | none => (none, none)
  | some s => (create_or_find meetup s, create_or_find dropoff s)

/-- Builds the dict `get_lesson_data` returns once validation has passed.
Note `is_approved` is computed from `user.teacher` truthiness, exactly as the
final dict literal in the source does. -/
def mkLessonData (date : Nat) (student : Student) (teacher : Teacher)
    (duration : Nat) (data : RequestData) (user : User) : LessonData :=
  let places := handle_places data.meetup_place data.dropoff_place (some student)
  { date := date
    meetup_place := places.1
    dropoff_place := places.2
    student := student
    teacher := teacher
    duration := duration
    price := parsePrice data.price
    comments := data.comments
    is_approved := user.teacher.isSome }

/-- `Student.get_by_id` over the student table (with Python's
`get_by_id(None)` yielding no student). -/
def getStudentById (db : DB) : Option Nat → Option Student
  | none => none
  | some sid => db.students.find? (fun s => s.id = sid)

/-- `get_lesson_data(data, user, lesson)` from the source.  The date checks
come first; then the student branch runs the availability scan
(`itertools.dropwhile` until a slot-start equals the requested date, the
conflict being suppressed when editing the lesson whose own date is
requested), the teacher branch resolves the target student; a user with
neither role reaches the unassigned local `student` at the `handle_places`
call. -/
def get_lesson_data (now : Nat) (db : DB) (data : RequestData) (user : User)
    (lesson : Option Lesson) : Except LessonErr LessonData :=
  match data.date with
  | none => .error (.routeError "Date is not valid." 400)
  | some date =>
    if lesson.isNone ∧ date < now then
      .error (.routeError "Date is not valid." 400)
    else
      match user.student with
      | some student =>
        let remaining :=
          (student.teacher.available_hours date).dropWhile
            (fun hour_with_date => hour_with_date.1 ≠ date)
        match remaining with
        | [] =>
          if (match lesson with
              | some l => date != l.date
              | none => true) then
            .error (.routeError "This hour is not available." 400)
          else
            .ok (mkLessonData date student student.teacher
              student.teacher.lesson_duration data user)
        | _ :: _ =>
          .ok (mkLessonData date student student.teacher
            student.teacher.lesson_duration data user)
      | none =>
        match user.teacher with
        | some teacher =>
          match getStudentById db data.student_id with
          | none => .error (.routeError "Student does not exist." 400)
          | some student =>
            .ok (mkLessonData date student teacher
              (data.duration.getD teacher.lesson_duration) data user)
        | none => .error (.unboundLocal "student")

/-- `Lesson.create(**get_lesson_data(...))`: inserts a new row built from the
lesson data, with a fresh id, not deleted, no topics yet, and the requesting
user as creator. -/
def Lesson.create (db : DB) (ld : LessonData) (creator : Nat) : DB × Lesson :=
  let l : Lesson :=
    { id := db.nextId
      date := ld.date
      duration := ld.duration
      teacher_id := ld.teacher.id
      student_id := some ld.student.id
      meetup_place := ld.meetup_place
      dropoff_place := ld.dropoff_place
      price := ld.price
      comments := ld.comments
      is_approved := ld.is_approved
      deleted := false
      creator_id := creator
      topics := [] }
  ({ db with lessons := db.lessons ++ [l], nextId := db.nextId + 1 }, l)

/-- POST `/lessons/`: `new_lesson`.  Checks the date field is present (with
its own message), then creates the lesson from `get_lesson_data`. -/
def new_lesson (now : Nat) (db : DB) (data : RequestData) (user : User) :
    Except LessonErr (DB × Lesson) :=
  match data.date with
  | none => .error (.routeError "Please insert the date of the lesson." 400)
  | some _ =>
    match get_lesson_data now db data user none with
    | .error e => .error e
    | .ok ld => .ok (Lesson.create db ld user.id)

/-- `lesson.update_only_changed_fields(**data)`.  Modelled from the spec: the
update applies each supplied field whose value differs from the current one;
the net effect sets every field carried by the lesson data and leaves the id,
the deleted flag, the creator and the topic associations unchanged. -/
def Lesson.applyData (l : Lesson) (ld : LessonData) : Lesson :=
  { l with
    date := ld.date
    duration := ld.duration
    teacher_id := ld.teacher.id
    student_id := some ld.student.id
    meetup_place := ld.meetup_place
    dropoff_place := ld.dropoff_place
    price := ld.price
    comments := ld.comments
    is_approved := ld.is_approved }

/-- The `current_user.teacher.lessons` / `current_user.student.lessons`
fallback used by `update_lesson` and `delete_lesson`: the teacher relation is
tried first, the `AttributeError` on a missing teacher role falls back to the
student relation.  Modelled from the spec: a role's `lessons` relation holds
the lesson rows referencing it.  A user with neither role raises in the
source; no claim quantifies over such a user here, so that case yields the
empty relation. -/
def User.ownLessons (u : User) (db : DB) : List Lesson :=
  match u.teacher with
  | some t => db.lessons.filter (fun l => l.teacher_id = t.id)
  | none =>
    match u.student with
    | some s => db.lessons.filter (fun l => l.student_id = some s.id)
    | none => []

/-- `lessons.filter_by(id=lesson_id).first()`. -/
def findLesson (ls : List Lesson) (lesson_id : Nat) : Option Lesson :=
  ls.find? (fun l => l.id = lesson_id)

/-- Replace the lesson with the given id by the image of `f`, leaving every
other row in place (the ORM mutates the row object; ids are unique in a real
table). -/
def DB.updateLesson (db : DB) (lesson_id : Nat) (f : Lesson → Lesson) : DB :=
  { db with
    lessons := db.lessons.map (fun x => if x.id = lesson_id then f x else x) }

/-- POST `/lessons/<id>`: `update_lesson`.  Looks the lesson up among the
requesting user's own lessons (404 otherwise), then applies
`get_lesson_data`'s output via `update_only_changed_fields`. -/
def update_lesson (now : Nat) (db : DB) (lesson_id : Nat) (data : RequestData)
    (user : User) : Except LessonErr DB :=
  match findLesson (user.ownLessons db) lesson_id with
  | none => .error (.routeError "Lesson does not exist" 404)
  | some l =>
    match get_lesson_data now db data user (some l) with
    | .error e => .error e
    | .ok ld => .ok (db.updateLesson l.id (fun x => x.applyData ld))

/-- DELETE `/lessons/<id>`: `delete_lesson`.  Looks the lesson up among the
requesting user's own lessons, then runs `lesson.update(deleted=True)` —
modelled from the spec: `update` sets the named column and never removes the
row (soft delete). -/
def delete_lesson (db : DB) (lesson_id : Nat) (user : User) :
    Except LessonErr DB :=
  match findLesson (user.ownLessons db) lesson_id with
  | none => .error (.routeError "Lesson does not exist." 400)
  | some l => .ok (db.updateLesson l.id (fun x => { x with deleted := true }))

/-- GET `/lessons/<id>/approve`: `approve_lesson`, run by a teacher (the
route is `teacher_required`).  The lesson must be among the teacher's own
lessons (404 otherwise); then the whole lesson table is scanned for another
approved lesson at the identical date with a distinct id; absent such a
conflict the approval flag is set. -/
def approve_lesson (db : DB) (teacher : Teacher) (lesson_id : Nat) :
    Except LessonErr DB :=
  match findLesson (db.lessons.filter (fun l => l.teacher_id = teacher.id))
      lesson_id with
  | none => .error (.routeError "Lesson does not exist" 404)
  | some lesson =>
    match db.lessons.find? (fun l2 =>
        l2.date = lesson.date ∧ l2.id ≠ lesson.id ∧ l2.is_approved) with
    | some _ =>
      .error (.routeError "There is another lesson at the same time." 400)
    | none =>
      .ok (db.updateLesson lesson.id (fun x => { x with is_approved := true }))

/-- The scheduling invariant of the spec: at most one lesson with
`is_approved = true` occupies any given date/time. -/
def approvedUnique (db : DB) : Prop :=
  ∀ l1 ∈ db.lessons, ∀ l2 ∈ db.lessons,
    l1.is_approved → l2.is_approved → l1.date = l2.date → l1.id = l2.id

/-- Row ids are pairwise distinct — the primary-key property of the lesson
table. -/
def uniqueIds (db : DB) : Prop :=
  db.lessons.Pairwise (fun a b => a.id ≠ b.id)

/-- `Topic.get_by_id(topic_id)` as a Boolean existence test. -/
def topicExists (db : DB) (tid : Nat) : Bool :=
  db.topicsTable.any (fun t => t.id = tid)

/-- The inner loop of `update_topics` over the id list of one status key:
every id is first checked against the topic table, ids already appended in
this same submission are skipped, the rest get a fresh association whose
finished flag comes from the key. -/
def appendTopics (db : DB) (key : String) (ids : List Nat)
    (appendedIds : List Nat) (acc : List LessonTopic) :
    Except LessonErr (List Nat × List LessonTopic) :=
  match ids with
  | [] => .ok (appendedIds, acc)
  | tid :: rest =>
    if ¬ topicExists db tid then
      .error (.routeError "Topic does not exist." 400)
    else if tid ∈ appendedIds then
      appendTopics db key rest appendedIds acc
    else
      appendTopics db key rest (appendedIds ++ [tid])
        (acc ++ [{ topic_id := tid, is_finished := key == "finished" }])

/-- The outer loop of `update_topics` over the `(status key, id list)` pairs
of the submitted mapping, threading the `appended_ids` guard across keys. -/
def appendAll (db : DB) (submission : List (String × List Nat))
    (appendedIds : List Nat) (acc : List LessonTopic) :
    Except LessonErr (List LessonTopic) :=
  match submission with
  | [] => .ok acc
  | (key, ids) :: rest =>
    match appendTopics db key ids appendedIds acc with
    | .error e => .error e
    | .ok (ap, acc2) => appendAll db rest ap acc2

/-- POST `/lessons/<id>/topics`: `update_topics`.  The lesson must exist and
have a student; the submitted mapping is walked as in the source and the new
associations are appended to the lesson's topic collection. -/
def update_topics (db : DB) (lesson_id : Nat)
    (submission : List (String × List Nat)) : Except LessonErr DB :=
  match findLesson db.lessons lesson_id with
  | none => .error (.routeError "Lesson does not exist." 400)
  | some lesson =>
    if lesson.student_id = none then
      .error (.routeError "Lesson must have a student assigned." 400)
    else
      match appendAll db submission [] [] with
      | .error e => .error e
      | .ok newTopics =>
        .ok (db.updateLesson lesson.id
          (fun x => { x with topics := x.topics ++ newTopics }))

/-- The submitted mapping flattened to `(status key, topic id)` pairs in
iteration order. -/
def flatSubmission (submission : List (String × List Nat)) :
    List (String × Nat) :=
  (submission.map (fun p => p.2.map (fun tid => (p.1, tid)))).flatten

/-- Written from the claim's words, for comparison with the loop of the
source: one association per distinct topic id, flag taken from the id's first
occurrence, later occurrences dropped. -/
def specTopicAssocs (pairs : List (String × Nat)) (seen : List Nat) :
    List LessonTopic :=
  match pairs with
  | [] => []
  | (k, tid) :: rest =>
    if tid ∈ seen then specTopicAssocs rest seen
    else
      { topic_id := tid, is_finished := k == "finished" } ::
        specTopicAssocs rest (seen ++ [tid])

/-- The appended-ids accumulator after walking `pairs` with the ids in
`seen` already recorded; companion of `specTopicAssocs`. -/
def specSeen (pairs : List (String × Nat)) (seen : List Nat) : List Nat :=
  match pairs with
  | [] => seen
  | (_, tid) :: rest =>
    if tid ∈ seen then specSeen rest seen
    else specSeen rest (seen ++ [tid])

/-- `student.topics(is_finished=f)`.  Modelled from the spec: the topic ids
the student has in `LessonTopic` records with that finished flag, across all
of the student's lessons. -/
def studentTopicIds (db : DB) (sid : Nat) (fin : Bool) : List Nat :=
  ((db.lessons.filter (fun l => l.student_id = some sid)).map
    (fun l => (l.topics.filter (fun lt => lt.is_finished = fin)).map
      (·.topic_id))).flatten

/-- `Topic.for_lesson(n)`.  Modelled from the spec: the topics whose
applicable-lesson-number range includes `n`. -/
def topicsForNumber (db : DB) (n : Nat) : List Nat :=
  (db.topicsTable.filter (fun t =>
    t.min_lesson_number ≤ n ∧ n ≤ t.max_lesson_number)).map (·.id)

/-- `lesson.topics.filter_by(is_finished=True)`: topic ids finished within
this very lesson. -/
def finishedInLesson (l : Lesson) : List Nat :=
  (l.topics.filter (·.is_finished)).map (·.topic_id)

/-- `lesson.topics.filter_by(is_finished=False)`: topic ids in progress
within this very lesson. -/
def inProgressInLesson (l : Lesson) : List Nat :=
  (l.topics.filter (fun lt => lt.is_finished = false)).map (·.topic_id)

/-- `lesson.lesson_number`.  Modelled from the spec: the lesson's ordinal
number; the spec pins down only `new_lesson_number` (count of approved
lessons + 1), quoted here, and every property proved below holds for any
value of this number. -/
def lessonNumber (db : DB) (sid : Nat) : Nat :=
  (db.lessons.filter (fun l => l.student_id = some sid ∧ l.is_approved)).length
    + 1

/-- The available-topics set expression of the `topics` endpoint for an
existing lesson with student `sid` and lesson number `n`:
`student.topics(False) ∪ Topic.for_lesson(n) - student.topics(True)`, then
re-united with the ids finished in this very lesson (set membership is what
the endpoint serialises; the list order is immaterial). -/
def availableTopicIds (db : DB) (l : Lesson) (sid : Nat) (n : Nat) :
    List Nat :=
  ((studentTopicIds db sid false ++ topicsForNumber db n).filter
    (fun t => t ∉ studentTopicIds db sid true)) ++ finishedInLesson l

/-- GET `/lessons/<id>/topics` for an existing lesson id: returns the
`(available, progress, finished)` triple, failing when the lesson is missing
or has no student. -/
def topics_view (db : DB) (lesson_id : Nat) :
    Except LessonErr (List Nat × List Nat × List Nat) :=
  match findLesson db.lessons lesson_id with
  | none => .error (.routeError "Lesson does not exist or not assigned." 404)
  | some lesson =>
    match lesson.student_id with
    | none => .error (.routeError "Lesson does not exist or not assigned." 404)
    | some sid =>
      .ok (availableTopicIds db lesson sid (lessonNumber db sid),
        inProgressInLesson lesson, finishedInLesson lesson)

/-! Concrete sample data used by the witness theorems. -/

/-- An availability calculator that offers every requested date as a slot. -/
def hoursAlways : Nat → List (Nat × String) := fun d => [(d, "slot")]

/-- An availability calculator that never offers a slot. -/
def hoursNever : Nat → List (Nat × String) := fun _ => []

def teacherA : Teacher :=
  { id := 1, user_id := 10, lesson_duration := 40,
    available_hours := hoursAlways }

def teacherB : Teacher :=
  { id := 2, user_id := 11, lesson_duration := 45,
    available_hours := hoursNever }

def studentA : Student := { id := 1, user_id := 20, teacher := teacherA }

def studentB : Student := { id := 2, user_id := 21, teacher := teacherB }

def userStudentA : User :=
  { id := 20, student := some studentA, teacher := none }

def userStudentB : User :=
  { id := 21, student := some studentB, teacher := none }

def userTeacherA : User :=
  { id := 10, student := none, teacher := some teacherA }

def userNoRole : User := { id := 30, student := none, teacher := none }

/-- A request for date 100 targeting student 1, with no duration and no
price. -/
def reqAt (d : Nat) : RequestData :=
  { date := some d, duration := none, student_id := some 1,
    meetup_place := some "home", dropoff_place := none, price := none,
    comments := none }

def dbEmpty : DB :=
  { lessons := [], students := [], topicsTable := [], nextId := 1 }

/-- A bare lesson row for concrete states. -/
def mkLesson (i dt tid : Nat) (sid : Option Nat) (app : Bool) : Lesson :=
  { id := i, date := dt, duration := 40, teacher_id := tid,
    student_id := sid, meetup_place := none, dropoff_place := none,
    price := none, comments := none, is_approved := app, deleted := false,
    creator_id := 0, topics := [] }

def dbStudents : DB :=
  { lessons := [], students := [studentA, studentB], topicsTable := [],
    nextId := 1 }

/-- A request carrying no fields at all. -/
def reqEmpty : RequestData :=
  { date := none, duration := none, student_id := none, meetup_place := none,
    dropoff_place := none, price := none, comments := none }

/-- A store with one unapproved lesson of teacher 1 / student 1. -/
def dbOne : DB :=
  { lessons := [mkLesson 1 100 1 (some 1) false], students := [studentA],
    topicsTable := [], nextId := 2 }

/-- A store with an approved lesson 1 and a pending lesson 2, both of
teacher 1 at date 100, plus teacher 1's pending lesson 3 at date 200. -/
def dbApprove : DB :=
  { lessons := [mkLesson 1 100 1 (some 1) true,
      mkLesson 2 100 1 (some 1) false, mkLesson 3 200 1 (some 1) false],
    students := [studentA], topicsTable := [], nextId := 4 }

/-- A store with one lesson of student 1 and curriculum topics 1, 2, 3. -/
def dbTopics : DB :=
  { lessons := [mkLesson 1 100 1 (some 1) false], students := [studentA],
    topicsTable :=
      [{ id := 1, min_lesson_number := 1, max_lesson_number := 5 },
        { id := 2, min_lesson_number := 1, max_lesson_number := 5 },
        { id := 3, min_lesson_number := 1, max_lesson_number := 5 }],
    nextId := 2 }

/-- A topic submission with id 2 under both status keys. -/
def subTopics : List (String × List Nat) :=
  [("progress", [1, 2]), ("finished", [2, 3])]

/-- A lesson of student 1 in which topic 5 was finished. -/
def lessonT1 : Lesson :=
  { mkLesson 1 50 1 (some 1) false with
    topics := [{ topic_id := 5, is_finished := true }] }

/-- A second lesson of student 1 in which topic 5 was finished again. -/
def lessonT2 : Lesson :=
  { mkLesson 2 60 1 (some 1) false with
    topics := [{ topic_id := 5, is_finished := true }] }

/-- A store where student 1 finished topic 5 in two distinct lessons. -/
def dbC6 : DB :=
  { lessons := [lessonT1, lessonT2], students := [studentA],
    topicsTable :=
      [{ id := 5, min_lesson_number := 1, max_lesson_number := 10 }],
    nextId := 3 }

/-- The unapproved lesson a student-initiated create inserts into `dbOne`
at date 100. -/
def lessonNewW : Lesson :=
  { id := 2, date := 100, duration := 40, teacher_id := 1,
    student_id := some 1, meetup_place := some "home",
    dropoff_place := none, price := none, comments := none,
    is_approved := false, deleted := false, creator_id := 20, topics := [] }

/-- The approved lesson a teacher-initiated create inserts at the already
occupied date 100 of `dbApprove`. -/
def lessonClash : Lesson :=
  { id := 4, date := 100, duration := 40, teacher_id := 1,
    student_id := some 1, meetup_place := some "home",
    dropoff_place := none, price := none, comments := none,
    is_approved := true, deleted := false, creator_id := 10, topics := [] }

/-! ## Claim theorems -/

/-- C4: a create request for a genuinely new lesson whose parsed date lies
strictly before the current time fails with the "Date is not valid." error,
both in `get_lesson_data` and through `new_lesson` (so no lesson is
created); when an existing lesson is being edited, a past date does not by
itself trigger this rejection. -/
theorem past_date_rejected_only_for_new_lessons (now : Nat) (db : DB)
    (data : RequestData) (user : User) (d : Nat)
    (hd : data.date = some d) (hpast : d < now) :
    get_lesson_data now db data user none =
      .error (.routeError "Date is not valid." 400) ∧
    new_lesson now db data user =
      .error (.routeError "Date is not valid." 400) ∧
    ∀ l : Lesson, get_lesson_data now db data user (some l) ≠
      .error (.routeError "Date is not valid." 400) := by
  have h1 : get_lesson_data now db data user none =
      .error (.routeError "Date is not valid." 400) := by
    unfold get_lesson_data
    rw [hd]
    simp [hpast]
  refine ⟨h1, ?_, ?_⟩
  · unfold new_lesson
    rw [hd, h1]
  · intro l
    unfold get_lesson_data
    rw [hd]
    simp only [Option.isNone_some, Bool.false_eq_true, false_and, if_false]
    split
    · split
      · split
        · simp
        · simp
      · simp
    · split
      · split
        · simp
        · simp
      · simp

/-- C4 witness: at `now = 100`, a student request dated 50 is rejected as a
new lesson but a lesson edit dated 50 never yields the past-date error. -/
theorem past_date_witness :
    get_lesson_data 100 dbEmpty (reqAt 50) userStudentA none =
      .error (.routeError "Date is not valid." 400) ∧
    new_lesson 100 dbEmpty (reqAt 50) userStudentA =
      .error (.routeError "Date is not valid." 400) ∧
    ∀ l : Lesson, get_lesson_data 100 dbEmpty (reqAt 50) userStudentA
      (some l) ≠ .error (.routeError "Date is not valid." 400) :=
  past_date_rejected_only_for_new_lessons 100 dbEmpty (reqAt 50) userStudentA
    50 rfl (by decide)

/-- The price field never steers control flow in `get_lesson_data`: the
result with any price value is the result with no price, with only the price
of a successful dict replaced by the parsed value. -/
theorem get_lesson_data_price_map (now : Nat) (db : DB) (data : RequestData)
    (user : User) (lesson : Option Lesson) (p : Option String) :
    get_lesson_data now db { data with price := p } user lesson =
      (get_lesson_data now db { data with price := none } user lesson).map
        (fun ld => { ld with price := parsePrice p }) := by
  obtain ⟨dd, dur, sid, mp, dp, pr, cm⟩ := data
  unfold get_lesson_data
  cases dd with
  | none => rfl
  | some d =>
    simp only
    split
    · rfl
    · cases user.student with
      | some s =>
        simp only
        split
        · split
          · rfl
          · rfl
        · rfl
      | none =>
        cases user.teacher with
        | some t =>
          simp only
          split
          · rfl
          · rfl
        | none => rfl

/-- C9: an absent or unparsable price is silently recorded as `None`: the
whole outcome of `get_lesson_data` is the one of the same request with no
price at all (so an unparsable price never makes the operation fail), and
any successful result carries `price = none`. -/
theorem unparsable_price_is_silently_none (now : Nat) (db : DB)
    (data : RequestData) (user : User) (lesson : Option Lesson)
    (hp : parsePrice data.price = none) :
    get_lesson_data now db data user lesson =
      get_lesson_data now db { data with price := none } user lesson ∧
    ∀ ld, get_lesson_data now db data user lesson = Except.ok ld →
      ld.price = none := by
  have h := get_lesson_data_price_map now db data user lesson data.price
  have hdata : { data with price := data.price } = data := rfl
  rw [hdata, hp] at h
  have h0 := get_lesson_data_price_map now db data user lesson none
  have hnone : parsePrice (none : Option String) = none := rfl
  rw [hnone] at h0
  constructor
  · rw [h, ← h0]
  · intro ld hld
    rw [h] at hld
    cases hget : get_lesson_data now db { data with price := none } user
        lesson with
    | error e => rw [hget] at hld; exact absurd hld (by simp [Except.map])
    | ok ld0 =>
      rw [hget] at hld
      simp [Except.map] at hld
      rw [← hld]

/-- C9 witness: a request whose price field is the unparsable string "abc"
behaves exactly like a priceless request and yields `price = none`. -/
theorem unparsable_price_witness :
    get_lesson_data 50 dbEmpty
      { reqAt 100 with price := some "abc" } userStudentA none =
      get_lesson_data 50 dbEmpty
        { { reqAt 100 with price := some "abc" } with price := none }
        userStudentA none ∧
    ∀ ld, get_lesson_data 50 dbEmpty
        { reqAt 100 with price := some "abc" } userStudentA none =
        Except.ok ld → ld.price = none :=
  unparsable_price_is_silently_none 50 dbEmpty
    { reqAt 100 with price := some "abc" } userStudentA none rfl

/-- C10 (amended): a user with a student or a teacher role never reaches an
unbound local in `get_lesson_data`; a user with neither role reaches the
unassigned local `student` on every request that passes the date checks
(date present and not a rejected past date), while a request failing the
date checks still gets the uniform validation error. -/
theorem get_lesson_data_role_safety (now : Nat) (db : DB)
    (data : RequestData) (user : User) (lesson : Option Lesson) :
    ((user.student.isSome ∨ user.teacher.isSome) →
      ∀ name, get_lesson_data now db data user lesson ≠
        .error (.unboundLocal name)) ∧
    (user.student = none → user.teacher = none →
      ∀ d, data.date = some d → (lesson.isSome ∨ ¬ d < now) →
        get_lesson_data now db data user lesson =
          .error (.unboundLocal "student")) := by
  constructor
  · intro hrole name
    unfold get_lesson_data
    cases hd : data.date with
    | none => simp
    | some d =>
      simp only
      split
      · simp
      · cases hs : user.student with
        | some s =>
          simp only
          split
          · split
            · simp
            · simp
          · simp
        | none =>
          cases ht : user.teacher with
          | some t =>
            simp only
            split
            · simp
            · simp
          | none =>
            rw [hs, ht] at hrole
            simp at hrole
  · intro hs ht d hd hdate
    unfold get_lesson_data
    rw [hd, hs, ht]
    have : ¬ (lesson.isNone = true ∧ d < now) := by
      rcases hdate with hl | hn
      · intro hc
        rw [Option.isSome_iff_exists] at hl
        obtain ⟨l, rfl⟩ := hl
        simp at hc
      · intro hc
        exact hn hc.2
    simp [this]
    intro hl
    subst hl
    simp at this
    omega

/-- C10 witness: a student-role user never hits the unbound local, and a
role-less user with a valid future date does. -/
theorem role_safety_witness :
    (∀ name, get_lesson_data 50 dbEmpty (reqAt 100) userStudentA none ≠
      .error (.unboundLocal name)) ∧
    get_lesson_data 50 dbEmpty (reqAt 100) userNoRole none =
      .error (.unboundLocal "student") :=
  ⟨(get_lesson_data_role_safety 50 dbEmpty (reqAt 100) userStudentA none).1
      (Or.inl rfl),
    (get_lesson_data_role_safety 50 dbEmpty (reqAt 100) userNoRole none).2
      rfl rfl 100 rfl (Or.inr (by decide))⟩

/-- C10 counterexample: a role-less user whose request has no date gets the
uniform "Date is not valid." validation error, not the unbound-local
exception the claim promises for every such user. -/
theorem role_safety_counterexample :
    get_lesson_data 0 dbEmpty reqEmpty userNoRole none =
      .error (.routeError "Date is not valid." 400) ∧
    get_lesson_data 0 dbEmpty reqEmpty userNoRole none ≠
      .error (.unboundLocal "student") := by
  constructor
  · rfl
  · intro h
    rw [show get_lesson_data 0 dbEmpty reqEmpty userNoRole none =
      .error (.routeError "Date is not valid." 400) from rfl] at h
    simp at h

/-- C8: for a teacher-initiated create, a `student_id` resolving to no
existing student fails with "Student does not exist."; otherwise the result
is the lesson dict whose duration defaults to the teacher's
`lesson_duration` when the request supplies none, and whose approval flag is
set immediately. -/
theorem teacher_create_validation (now : Nat) (db : DB) (data : RequestData)
    (user : User) (t : Teacher) (d : Nat)
    (hs : user.student = none) (ht : user.teacher = some t)
    (hd : data.date = some d) (hfut : ¬ d < now) :
    (getStudentById db data.student_id = none →
      get_lesson_data now db data user none =
        .error (.routeError "Student does not exist." 400)) ∧
    (∀ s, getStudentById db data.student_id = some s →
      get_lesson_data now db data user none =
        .ok (mkLessonData d s t (data.duration.getD t.lesson_duration)
          data user)) ∧
    (∀ s dur, (mkLessonData d s t dur data user).is_approved = true) ∧
    (data.duration = none →
      data.duration.getD t.lesson_duration = t.lesson_duration) := by
  have hred : ∀ r : Except LessonErr LessonData,
      (match getStudentById db data.student_id with
        | none =>
          Except.error (LessonErr.routeError "Student does not exist." 400)
        | some student =>
          Except.ok (mkLessonData d student t
            (data.duration.getD t.lesson_duration) data user)) = r →
      get_lesson_data now db data user none = r := by
    intro r hr
    unfold get_lesson_data
    rw [hd, hs, ht]
    simpa [hfut] using hr
  refine ⟨?_, ?_, ?_, ?_⟩
  · intro hnone
    exact hred _ (by rw [hnone])
  · intro s hsome
    exact hred _ (by rw [hsome])
  · intro s dur
    simp [mkLessonData, ht]
  · intro hdur
    rw [hdur]
    rfl

/-- C8 witness: teacher 1 creating a lesson for the missing student id in an
empty store fails, while with student 1 present the result is approved with
the teacher's default duration 40. -/
theorem teacher_create_witness :
    get_lesson_data 50 dbEmpty (reqAt 100) userTeacherA none =
      .error (.routeError "Student does not exist." 400) ∧
    get_lesson_data 50 dbStudents (reqAt 100) userTeacherA none =
      .ok (mkLessonData 100 studentA teacherA 40 (reqAt 100) userTeacherA) ∧
    (mkLessonData 100 studentA teacherA 40 (reqAt 100)
      userTeacherA).is_approved = true ∧
    (mkLessonData 100 studentA teacherA 40 (reqAt 100)
      userTeacherA).duration = teacherA.lesson_duration := by
  have h1 := teacher_create_validation 50 dbEmpty (reqAt 100) userTeacherA
    teacherA 100 rfl rfl rfl (by decide)
  have h2 := teacher_create_validation 50 dbStudents (reqAt 100) userTeacherA
    teacherA 100 rfl rfl rfl (by decide)
  exact ⟨h1.1 rfl, h2.2.1 studentA rfl, h2.2.2.1 studentA 40, rfl⟩

/-- C3: for a student-initiated create or update passing the date checks,
the request fails with "This hour is not available." whenever the requested
date is no slot-start of the assigned teacher's available hours and the
self-conflict exemption does not apply; editing a lesson at its own current
date always proceeds, as does any date that is a listed slot-start. -/
theorem student_hour_validation (now : Nat) (db : DB) (data : RequestData)
    (user : User) (s : Student) (d : Nat) (lesson : Option Lesson)
    (hs : user.student = some s) (hd : data.date = some d)
    (hdate : lesson.isSome ∨ ¬ d < now) :
    ((d ∉ (s.teacher.available_hours d).map Prod.fst) →
      (∀ l, lesson = some l → d ≠ l.date) →
      get_lesson_data now db data user lesson =
        .error (.routeError "This hour is not available." 400)) ∧
    (∀ l, lesson = some l → d = l.date →
      get_lesson_data now db data user lesson =
        .ok (mkLessonData d s s.teacher s.teacher.lesson_duration
          data user)) ∧
    ((d ∈ (s.teacher.available_hours d).map Prod.fst) →
      get_lesson_data now db data user lesson =
        .ok (mkLessonData d s s.teacher s.teacher.lesson_duration
          data user)) := by
  have hif : ¬ (lesson.isNone = true ∧ d < now) := by
    rcases hdate with hl | hn
    · intro hc
      rw [Option.isSome_iff_exists] at hl
      obtain ⟨l, rfl⟩ := hl
      simp at hc
    · exact fun hc => hn hc.2
  refine ⟨?_, ?_, ?_⟩
  · intro hnot hnoself
    have hdw : (s.teacher.available_hours d).dropWhile
        (fun hour_with_date => hour_with_date.1 ≠ d) = [] := by
      rw [List.dropWhile_eq_nil_iff]
      intro x hx
      simp only [ne_eq, decide_eq_true_eq]
      intro hfst
      exact hnot (List.mem_map.mpr ⟨x, hx, hfst⟩)
    unfold get_lesson_data
    cases lesson with
    | none =>
      simp only [hd, hs]
      rw [if_neg hif, hdw]
      simp
    | some l =>
      have hne : d ≠ l.date := hnoself l rfl
      simp only [hd, hs]
      rw [if_neg hif, hdw]
      simp [hne]
  · intro l hl hdl
    subst hl
    unfold get_lesson_data
    simp only [hd, hs]
    rw [if_neg hif]
    cases hdw : (s.teacher.available_hours d).dropWhile
        (fun hour_with_date => hour_with_date.1 ≠ d) with
    | nil => simp [hdl]
    | cons a tail => simp
  · intro hmem
    unfold get_lesson_data
    simp only [hd, hs]
    rw [if_neg hif]
    cases hdw : (s.teacher.available_hours d).dropWhile
        (fun hour_with_date => hour_with_date.1 ≠ d) with
    | nil =>
      exfalso
      rw [List.dropWhile_eq_nil_iff] at hdw
      obtain ⟨x, hx, hfst⟩ := List.mem_map.mp hmem
      have := hdw x hx
      simp only [ne_eq, decide_eq_true_eq] at this
      exact this hfst
    | cons a tail => simp

/-- C3 witness: for student 2 (whose teacher offers no hours) a new lesson
at date 100 is rejected, while editing a lesson whose own date is 100
proceeds; for student 1 (whose teacher always offers the date) the new
lesson goes through. -/
theorem student_hour_witness :
    get_lesson_data 50 dbEmpty (reqAt 100) userStudentB none =
      .error (.routeError "This hour is not available." 400) ∧
    get_lesson_data 50 dbEmpty (reqAt 100) userStudentB
      (some (mkLesson 7 100 2 (some 2) false)) =
      .ok (mkLessonData 100 studentB teacherB 45 (reqAt 100)
        userStudentB) ∧
    get_lesson_data 50 dbEmpty (reqAt 100) userStudentA none =
      .ok (mkLessonData 100 studentA teacherA 40 (reqAt 100)
        userStudentA) := by
  have hB := student_hour_validation 50 dbEmpty (reqAt 100) userStudentB
    studentB 100 none rfl rfl (Or.inr (by decide))
  have hBe := student_hour_validation 50 dbEmpty (reqAt 100) userStudentB
    studentB 100 (some (mkLesson 7 100 2 (some 2) false)) rfl rfl
    (Or.inl rfl)
  have hA := student_hour_validation 50 dbEmpty (reqAt 100) userStudentA
    studentA 100 none rfl rfl (Or.inr (by decide))
  refine ⟨hB.1 (by simp [studentB, teacherB, hoursNever])
      (by intro l hl; cases hl), ?_, ?_⟩
  · exact hBe.2.1 (mkLesson 7 100 2 (some 2) false) rfl rfl
  · exact hA.2.2 (by simp [studentA, teacherA, hoursAlways])

/-- A user's own-lessons relation only yields rows of the lesson table. -/
theorem ownLessons_subset (u : User) (db : DB) :
    ∀ l ∈ u.ownLessons db, l ∈ db.lessons := by
  intro l hl
  unfold User.ownLessons at hl
  cases ht : u.teacher with
  | some t =>
    rw [ht] at hl
    exact (List.mem_filter.mp hl).1
  | none =>
    rw [ht] at hl
    cases hst : u.student with
    | some s =>
      rw [hst] at hl
      exact (List.mem_filter.mp hl).1
    | none =>
      rw [hst] at hl
      cases hl

/-- In a list of lessons with pairwise distinct ids, two members sharing an
id are the same row. -/
theorem pairwise_id_eq : ∀ {ls : List Lesson},
    ls.Pairwise (fun a b => a.id ≠ b.id) →
    ∀ {a b : Lesson}, a ∈ ls → b ∈ ls → a.id = b.id → a = b := by
  intro ls
  induction ls with
  | nil => intro _ a b ha _ _; cases ha
  | cons x xs ih =>
    intro hp a b ha hb hab
    rw [List.pairwise_cons] at hp
    rcases List.mem_cons.mp ha with rfl | ha2
    · rcases List.mem_cons.mp hb with rfl | hb2
      · rfl
      · exact absurd hab (hp.1 b hb2)
    · rcases List.mem_cons.mp hb with rfl | hb2
      · exact absurd hab.symm (hp.1 a ha2)
      · exact ih hp.2 ha2 hb2 hab

/-- Updating a row by id leaves the table length unchanged. -/
theorem updateLesson_length (db : DB) (lid : Nat) (f : Lesson → Lesson) :
    (db.updateLesson lid f).lessons.length = db.lessons.length :=
  List.length_map db.lessons _

/-- Rows with a different id survive an update untouched. -/
theorem updateLesson_frame (db : DB) (lid : Nat) (f : Lesson → Lesson) :
    ∀ x ∈ db.lessons, x.id ≠ lid →
      x ∈ (db.updateLesson lid f).lessons := by
  intro x hx hne
  have himg : (if x.id = lid then f x else x) = x := if_neg hne
  exact himg ▸ List.mem_map_of_mem _ hx

/-- Finding by id in an id-keyed map update of a duplicate-free list returns
the image of the targeted row. -/
theorem find_in_updated : ∀ (ls : List Lesson),
    ls.Pairwise (fun a b => a.id ≠ b.id) → ∀ (l : Lesson), l ∈ ls →
    ∀ (f : Lesson → Lesson), (f l).id = l.id →
    (ls.map (fun x => if x.id = l.id then f x else x)).find?
      (fun x => x.id = l.id) = some (f l) := by
  intro ls
  induction ls with
  | nil => intro _ l hl; cases hl
  | cons x xs ih =>
    intro hp l hl f hf
    rw [List.pairwise_cons] at hp
    rcases List.mem_cons.mp hl with rfl | hl2
    · rw [List.map_cons, if_pos rfl]
      exact List.find?_cons_of_pos _ (by simp [hf])
    · have hxne : x.id ≠ l.id := hp.1 l hl2
      rw [List.map_cons, if_neg hxne]
      rw [List.find?_cons_of_neg _ (by simp [hxne])]
      exact ih hp.2 l hl2 f hf

/-- Looking a row up after updating it by id returns its image, when ids are
pairwise distinct and the update keeps the id. -/
theorem findLesson_updateLesson (db : DB) (hu : uniqueIds db) (l : Lesson)
    (hl : l ∈ db.lessons) (f : Lesson → Lesson)
    (hf : (f l).id = l.id) :
    findLesson (db.updateLesson l.id f).lessons l.id = some (f l) :=
  find_in_updated db.lessons hu l hl f hf

/-- C7: deleting one of the current user's lessons soft-deletes it: the
result sets only the deleted flag on that row, keeps the table length, keeps
every other row untouched, and the row stays retrievable by its id with
`deleted = true` and all other fields unchanged. -/
theorem delete_lesson_soft_deletes (db : DB) (u : User) (lid : Nat)
    (l : Lesson) (hu : uniqueIds db)
    (hfind : findLesson (u.ownLessons db) lid = some l) :
    delete_lesson db lid u =
      .ok (db.updateLesson l.id (fun x => { x with deleted := true })) ∧
    findLesson (db.updateLesson l.id
        (fun x => { x with deleted := true })).lessons l.id =
      some { l with deleted := true } ∧
    (db.updateLesson l.id
      (fun x => { x with deleted := true })).lessons.length =
      db.lessons.length ∧
    ∀ x ∈ db.lessons, x.id ≠ l.id →
      x ∈ (db.updateLesson l.id
        (fun x => { x with deleted := true })).lessons := by
  have hmem : l ∈ db.lessons :=
    ownLessons_subset u db l (List.mem_of_find?_eq_some hfind)
  refine ⟨?_, ?_, updateLesson_length db l.id _, updateLesson_frame db l.id _⟩
  · unfold delete_lesson
    rw [hfind]
  · exact findLesson_updateLesson db hu l hmem _ rfl

/-- C7 witness: teacher 1 deletes lesson 1 in `dbOne`; the row survives with
only the deleted flag set. -/
theorem delete_lesson_witness :
    delete_lesson dbOne 1 userTeacherA =
      .ok (dbOne.updateLesson 1 (fun x => { x with deleted := true })) ∧
    findLesson (dbOne.updateLesson 1
        (fun x => { x with deleted := true })).lessons 1 =
      some { mkLesson 1 100 1 (some 1) false with deleted := true } ∧
    (dbOne.updateLesson 1
      (fun x => { x with deleted := true })).lessons.length =
      dbOne.lessons.length ∧
    ∀ x ∈ dbOne.lessons, x.id ≠ 1 →
      x ∈ (dbOne.updateLesson 1
        (fun x => { x with deleted := true })).lessons :=
  delete_lesson_soft_deletes dbOne userTeacherA 1
    (mkLesson 1 100 1 (some 1) false)
    (by unfold uniqueIds dbOne; simp)
    rfl

/-- C2: approving a lesson fails with a 404 when the lesson id is not among
the teacher's own lessons; it fails with the same-time conflict error when
another lesson with a distinct id and a set approval flag exists at the
identical date; otherwise the only change is the approval flag of the
targeted lesson.  Failures return no new state, so the lesson is unchanged
on failure. -/
theorem approve_lesson_spec (db : DB) (t : Teacher) (lid : Nat) :
    ((∀ l ∈ db.lessons, l.teacher_id = t.id → l.id ≠ lid) →
      approve_lesson db t lid =
        .error (.routeError "Lesson does not exist" 404)) ∧
    (∀ lesson,
      findLesson (db.lessons.filter (fun l => l.teacher_id = t.id)) lid =
        some lesson →
      ((∃ l2 ∈ db.lessons, l2.date = lesson.date ∧ l2.id ≠ lesson.id ∧
          l2.is_approved = true) →
        approve_lesson db t lid = .error
          (.routeError "There is another lesson at the same time." 400)) ∧
      ((∀ l2 ∈ db.lessons, l2.date = lesson.date → l2.is_approved = true →
          l2.id = lesson.id) →
        approve_lesson db t lid = .ok (db.updateLesson lesson.id
          (fun x => { x with is_approved := true })))) := by
  constructor
  · intro hnone
    have hfind : findLesson
        (db.lessons.filter (fun l => l.teacher_id = t.id)) lid = none := by
      unfold findLesson
      rw [List.find?_eq_none]
      intro x hx
      have hx2 := List.mem_filter.mp hx
      simp only [decide_eq_true_eq] at hx2 ⊢
      exact hnone x hx2.1 hx2.2
    unfold approve_lesson
    rw [hfind]
  · intro lesson hfind
    have hred : ∀ r : Except LessonErr DB,
        (match db.lessons.find? (fun l2 =>
            l2.date = lesson.date ∧ l2.id ≠ lesson.id ∧
              l2.is_approved) with
          | some _ => (Except.error (LessonErr.routeError
              "There is another lesson at the same time." 400) :
                Except LessonErr DB)
          | none => Except.ok (db.updateLesson lesson.id
              (fun x => { x with is_approved := true }))) = r →
        approve_lesson db t lid = r := by
      intro r hr
      unfold approve_lesson
      rw [hfind]
      simpa using hr
    constructor
    · intro hconf
      obtain ⟨l2, hl2, hdate, hne, happ⟩ := hconf
      cases hc : db.lessons.find? (fun l2 =>
          l2.date = lesson.date ∧ l2.id ≠ lesson.id ∧ l2.is_approved) with
      | some c => exact hred _ (by rw [hc])
      | none =>
        exfalso
        rw [List.find?_eq_none] at hc
        have := hc l2 hl2
        simp only [decide_eq_true_eq, not_and] at this
        exact absurd happ (by simpa [hdate, hne] using this)
    · intro hnoconf
      cases hc : db.lessons.find? (fun l2 =>
          l2.date = lesson.date ∧ l2.id ≠ lesson.id ∧ l2.is_approved) with
      | some c =>
        exfalso
        have hmem := List.mem_of_find?_eq_some hc
        have hp := List.find?_some hc
        simp only [decide_eq_true_eq] at hp
        exact hp.2.1 (hnoconf c hmem hp.1 hp.2.2)
      | none => exact hred _ (by rw [hc])

/-- C2 witness: in `dbApprove`, approving the missing lesson 9 is a 404,
approving lesson 2 hits the same-time conflict with approved lesson 1, and
approving lesson 3 succeeds by setting its approval flag. -/
theorem approve_lesson_witness :
    approve_lesson dbApprove teacherA 9 =
      .error (.routeError "Lesson does not exist" 404) ∧
    approve_lesson dbApprove teacherA 2 =
      .error (.routeError "There is another lesson at the same time." 400) ∧
    approve_lesson dbApprove teacherA 3 = .ok (dbApprove.updateLesson 3
      (fun x => { x with is_approved := true })) := by
  have h9 := (approve_lesson_spec dbApprove teacherA 9).1 (by decide)
  have h2 := ((approve_lesson_spec dbApprove teacherA 2).2
    (mkLesson 2 100 1 (some 1) false) rfl).1
    ⟨mkLesson 1 100 1 (some 1) true, by decide⟩
  have h3 := ((approve_lesson_spec dbApprove teacherA 3).2
    (mkLesson 3 200 1 (some 1) false) rfl).2 (by decide)
  exact ⟨h9, h2, h3⟩

/-- Flattening a submission distributes over its head key. -/
theorem flatSubmission_cons (key : String) (ids : List Nat)
    (rest : List (String × List Nat)) :
    flatSubmission ((key, ids) :: rest) =
      ids.map (fun tid => (key, tid)) ++ flatSubmission rest := by
  simp [flatSubmission]

/-- The inner topics loop agrees with the first-occurrence walk when every
submitted id exists. -/
theorem appendTopics_eq (db : DB) (key : String) : ∀ (ids : List Nat)
    (seen : List Nat) (acc : List LessonTopic),
    (∀ tid ∈ ids, topicExists db tid = true) →
    appendTopics db key ids seen acc =
      .ok (specSeen (ids.map (fun tid => (key, tid))) seen,
        acc ++ specTopicAssocs (ids.map (fun tid => (key, tid))) seen) := by
  intro ids
  induction ids with
  | nil =>
    intro seen acc _
    simp [appendTopics, specSeen, specTopicAssocs]
  | cons t rest ih =>
    intro seen acc h
    have hex : topicExists db t = true := h t (List.mem_cons_self t rest)
    unfold appendTopics
    rw [if_neg (fun hn => hn hex)]
    by_cases hmem : t ∈ seen
    · rw [if_pos hmem,
        ih seen acc (fun x hx => h x (List.mem_cons_of_mem _ hx))]
      simp [specSeen, specTopicAssocs, hmem]
    · rw [if_neg hmem]
      have ha := ih (seen ++ [t])
        (acc ++ [({ topic_id := t, is_finished := key == "finished" } : LessonTopic)])
        (fun x hx => h x (List.mem_cons_of_mem _ hx))
      rw [ha]
      simp [specSeen, specTopicAssocs, hmem]

/-- The inner topics loop fails with the missing-topic error as soon as some
submitted id has no topic record, whatever was already appended. -/
theorem appendTopics_error (db : DB) (key : String) : ∀ (ids : List Nat)
    (seen : List Nat) (acc : List LessonTopic),
    (∃ tid ∈ ids, topicExists db tid = false) →
    appendTopics db key ids seen acc =
      .error (.routeError "Topic does not exist." 400) := by
  intro ids
  induction ids with
  | nil =>
    rintro seen acc ⟨tid, h, _⟩
    cases h
  | cons t rest ih =>
    rintro seen acc ⟨tid, hmem, hfalse⟩
    unfold appendTopics
    by_cases hex : topicExists db t = true
    · rw [if_neg (fun hn => hn hex)]
      have htid : tid ∈ rest := by
        rcases List.mem_cons.mp hmem with rfl | h2
        · rw [hex] at hfalse; cases hfalse
        · exact h2
      by_cases hseen : t ∈ seen
      · rw [if_pos hseen]
        exact ih _ _ ⟨tid, htid, hfalse⟩
      · rw [if_neg hseen]
        exact ih _ _ ⟨tid, htid, hfalse⟩
    · rw [if_pos hex]

/-- Walking the head key then the rest of a flattened submission chains the
seen-accumulator through `specSeen`. -/
theorem spec_append : ∀ (p1 p2 : List (String × Nat)) (seen : List Nat),
    specTopicAssocs (p1 ++ p2) seen =
      specTopicAssocs p1 seen ++ specTopicAssocs p2 (specSeen p1 seen) := by
  intro p1
  induction p1 with
  | nil => intro p2 seen; rfl
  | cons a rest ih =>
    intro p2 seen
    obtain ⟨k, t⟩ := a
    rw [List.cons_append]
    by_cases h : t ∈ seen
    · simp only [specTopicAssocs, specSeen, if_pos h]
      exact ih p2 seen
    · simp only [specTopicAssocs, specSeen, if_neg h]
      rw [ih p2 (seen ++ [t])]
      simp

/-- The outer topics loop yields exactly the first-occurrence associations
when every submitted id exists. -/
theorem appendAll_cons_ok (db : DB) (key : String) (ids : List Nat)
    (rest : List (String × List Nat)) (seen ap : List Nat)
    (acc acc2 : List LessonTopic)
    (h : appendTopics db key ids seen acc = .ok (ap, acc2)) :
    appendAll db ((key, ids) :: rest) seen acc = appendAll db rest ap acc2 :=
  by
  conv_lhs => unfold appendAll
  rw [h]

/-- A failing head key fails the whole outer topics loop. -/
theorem appendAll_cons_err (db : DB) (key : String) (ids : List Nat)
    (rest : List (String × List Nat)) (seen : List Nat)
    (acc : List LessonTopic) (e : LessonErr)
    (h : appendTopics db key ids seen acc = .error e) :
    appendAll db ((key, ids) :: rest) seen acc = .error e := by
  unfold appendAll
  rw [h]

/-- The outer topics loop equals the first-occurrence walk of the flattened
submission when every submitted id exists. -/
theorem appendAll_eq (db : DB) : ∀ (submission : List (String × List Nat))
    (seen : List Nat) (acc : List LessonTopic),
    (∀ p ∈ flatSubmission submission, topicExists db p.2 = true) →
    appendAll db submission seen acc =
      .ok (acc ++ specTopicAssocs (flatSubmission submission) seen) := by
  intro submission
  induction submission with
  | nil =>
    intro seen acc _
    simp [appendAll, flatSubmission, specTopicAssocs]
  | cons a rest ih =>
    intro seen acc h
    obtain ⟨key, ids⟩ := a
    rw [flatSubmission_cons] at h
    have hids : ∀ tid ∈ ids, topicExists db tid = true := fun tid htid =>
      h (key, tid) (List.mem_append_left _ (List.mem_map_of_mem _ htid))
    rw [appendAll_cons_ok db key ids rest seen _ acc _
      (appendTopics_eq db key ids seen acc hids)]
    rw [ih _ _ (fun p hp => h p (List.mem_append_right _ hp))]
    rw [flatSubmission_cons, spec_append]
    simp

/-- The outer topics loop fails with the missing-topic error when some
submitted id has no topic record. -/
theorem appendAll_error (db : DB) : ∀ (submission : List (String × List Nat))
    (seen : List Nat) (acc : List LessonTopic),
    (∃ p ∈ flatSubmission submission, topicExists db p.2 = false) →
    appendAll db submission seen acc =
      .error (.routeError "Topic does not exist." 400) := by
  intro submission
  induction submission with
  | nil =>
    rintro seen acc ⟨p, hp, _⟩
    simp [flatSubmission] at hp
  | cons a rest ih =>
    rintro seen acc ⟨p, hp, hfalse⟩
    obtain ⟨key, ids⟩ := a
    rw [flatSubmission_cons] at hp
    rcases List.mem_append.mp hp with h1 | h2
    · obtain ⟨tid, htid, heq⟩ := List.mem_map.mp h1
      subst heq
      exact appendAll_cons_err db key ids rest seen acc _
        (appendTopics_error db key ids seen acc ⟨tid, htid, hfalse⟩)
    · by_cases hall : ∀ tid ∈ ids, topicExists db tid = true
      · rw [appendAll_cons_ok db key ids rest seen _ acc _
          (appendTopics_eq db key ids seen acc hall)]
        exact ih _ _ ⟨p, h2, hfalse⟩
      · push_neg at hall
        obtain ⟨tid, htid, hne⟩ := hall
        have hf : topicExists db tid = false := by
          cases hv : topicExists db tid
          · rfl
          · exact absurd hv hne
        exact appendAll_cons_err db key ids rest seen acc _
          (appendTopics_error db key ids seen acc ⟨tid, htid, hf⟩)

/-- Each id gets exactly one association from the first-occurrence walk,
none when it was already seen or never submitted. -/
theorem spec_count : ∀ (pairs : List (String × Nat)) (seen : List Nat)
    (tid : Nat),
    ((specTopicAssocs pairs seen).filter
      (fun lt => lt.topic_id = tid)).length =
    if tid ∈ pairs.map Prod.snd ∧ tid ∉ seen then 1 else 0 := by
  intro pairs
  induction pairs with
  | nil => intro seen tid; simp [specTopicAssocs]
  | cons a rest ih =>
    intro seen tid
    obtain ⟨k, t⟩ := a
    by_cases hms : t ∈ seen
    · simp only [specTopicAssocs, if_pos hms]
      rw [ih seen tid]
      by_cases he : tid = t
      · subst he
        have hc1 : ¬ (tid ∈ List.map Prod.snd rest ∧ tid ∉ seen) :=
          fun hc => hc.2 hms
        have hc2 : ¬ (tid ∈ List.map Prod.snd ((k, tid) :: rest) ∧
            tid ∉ seen) := fun hc => hc.2 hms
        rw [if_neg hc1, if_neg hc2]
      · exact if_congr (by simp [he]) rfl rfl
    · simp only [specTopicAssocs, if_neg hms]
      by_cases he : tid = t
      · subst he
        rw [List.filter_cons_of_pos (by simp)]
        simp only [List.length_cons]
        rw [ih (seen ++ [tid]) tid]
        rw [if_neg (by simp)]
        rw [if_pos (by simp [hms])]
      · rw [List.filter_cons_of_neg
          (by simp only [decide_eq_true_eq]; exact fun hh => he hh.symm)]
        rw [ih (seen ++ [t]) tid]
        exact if_congr (by simp [he]) rfl rfl

/-- The association an id receives from the first-occurrence walk takes its
finished flag from the id's first occurrence in the flattened submission. -/
theorem spec_first_flag : ∀ (pairs : List (String × Nat)) (seen : List Nat)
    (p : String × Nat),
    pairs.find? (fun q => q.2 = p.2) = some p → p.2 ∉ seen →
    ({ topic_id := p.2, is_finished := p.1 == "finished" } : LessonTopic) ∈
      specTopicAssocs pairs seen := by
  intro pairs
  induction pairs with
  | nil =>
    intro seen p h
    cases h
  | cons a rest ih =>
    intro seen p hfind hseen
    obtain ⟨k, t⟩ := a
    by_cases he : t = p.2
    · rw [List.find?_cons_of_pos _ (by simp [he])] at hfind
      injection hfind with heq
      subst heq
      simp only [specTopicAssocs, if_neg hseen]
      exact List.mem_cons_self _ _
    · rw [List.find?_cons_of_neg _ (by simp [he])] at hfind
      by_cases hms : t ∈ seen
      · simp only [specTopicAssocs, if_pos hms]
        exact ih seen p hfind hseen
      · simp only [specTopicAssocs, if_neg hms]
        refine List.mem_cons_of_mem _ (ih (seen ++ [t]) p hfind ?_)
        have hnp : ¬ p.2 = t := fun hh => he hh.symm
        simp [hseen, hnp]

/-- C5: when every id of a single submission refers to an existing topic,
`update_topics` appends exactly the first-occurrence associations to the
lesson: one association per distinct id, its finished flag determined by the
key under which the id first occurs, later duplicates skipped; when some id
refers to no topic, the call fails with the missing-topic error. -/
theorem update_topics_spec (db : DB) (lid : Nat)
    (submission : List (String × List Nat)) (lesson : Lesson)
    (hfind : findLesson db.lessons lid = some lesson)
    (hstud : ¬ lesson.student_id = none) :
    ((∀ p ∈ flatSubmission submission, topicExists db p.2 = true) →
      update_topics db lid submission = .ok (db.updateLesson lesson.id
        (fun x => { x with topics :=
          x.topics ++ specTopicAssocs (flatSubmission submission) [] }))) ∧
    ((∃ p ∈ flatSubmission submission, topicExists db p.2 = false) →
      update_topics db lid submission =
        .error (.routeError "Topic does not exist." 400)) ∧
    (∀ tid, ((specTopicAssocs (flatSubmission submission) []).filter
        (fun lt => lt.topic_id = tid)).length =
      if tid ∈ (flatSubmission submission).map Prod.snd then 1 else 0) ∧
    (∀ p : String × Nat, (flatSubmission submission).find?
        (fun q => q.2 = p.2) = some p →
      ({ topic_id := p.2, is_finished := p.1 == "finished" } : LessonTopic) ∈
        specTopicAssocs (flatSubmission submission) []) := by
  have hred : ∀ r : Except LessonErr DB,
      (match appendAll db submission [] [] with
        | .error e => (Except.error e : Except LessonErr DB)
        | .ok newTopics => Except.ok (db.updateLesson lesson.id
            (fun x => { x with topics := x.topics ++ newTopics }))) = r →
      update_topics db lid submission = r := by
    intro r hr
    unfold update_topics
    rw [hfind]
    simpa [hstud] using hr
  refine ⟨?_, ?_, ?_, ?_⟩
  · intro hall
    exact hred _ (by rw [appendAll_eq db submission [] [] hall]; rfl)
  · intro hsome
    exact hred _ (by rw [appendAll_error db submission [] [] hsome])
  · intro tid
    rw [spec_count (flatSubmission submission) [] tid]
    exact if_congr (by simp) rfl rfl
  · intro p hp
    exact spec_first_flag (flatSubmission submission) [] p hp
      (List.not_mem_nil _)

/-- C5 witness: submitting progress ids 1,2 then finished ids 2,3 appends
one association each for 1 (progress), 2 (progress, first occurrence) and 3
(finished), while a submission naming the missing topic 9 fails. -/
theorem update_topics_witness :
    update_topics dbTopics 1 subTopics = .ok (dbTopics.updateLesson 1
      (fun x => { x with topics :=
        x.topics ++ specTopicAssocs (flatSubmission subTopics) [] })) ∧
    update_topics dbTopics 1 [("progress", [9])] =
      .error (.routeError "Topic does not exist." 400) ∧
    specTopicAssocs (flatSubmission subTopics) [] =
      [{ topic_id := 1, is_finished := false },
        { topic_id := 2, is_finished := false },
        { topic_id := 3, is_finished := true }] ∧
    ((specTopicAssocs (flatSubmission subTopics) []).filter
      (fun lt => lt.topic_id = 2)).length = 1 := by
  have h := update_topics_spec dbTopics 1 subTopics
    (mkLesson 1 100 1 (some 1) false) rfl (by decide)
  have h2 := update_topics_spec dbTopics 1 [("progress", [9])]
    (mkLesson 1 100 1 (some 1) false) rfl (by decide)
  refine ⟨h.1 (by decide), h2.2.1 ⟨("progress", 9), by decide⟩,
    by decide, ?_⟩
  have hcount := h.2.2.1 2
  simpa using hcount

/-- C6 (amended): for a lesson with an assigned student, the topics endpoint
returns exactly the in-progress and finished id lists of this lesson, its
available set always contains every topic finished within this lesson, and
it contains no topic the student finished in a different lesson unless that
topic was also finished within this lesson. -/
theorem topics_view_spec (db : DB) (lid : Nat) (lesson : Lesson) (sid : Nat)
    (hfind : findLesson db.lessons lid = some lesson)
    (hsid : lesson.student_id = some sid) :
    topics_view db lid = .ok
      (availableTopicIds db lesson sid (lessonNumber db sid),
        inProgressInLesson lesson, finishedInLesson lesson) ∧
    (∀ t, t ∈ finishedInLesson lesson →
      t ∈ availableTopicIds db lesson sid (lessonNumber db sid)) ∧
    (∀ t, (∃ l2 ∈ db.lessons, l2.id ≠ lesson.id ∧ l2.student_id = some sid ∧
        t ∈ finishedInLesson l2) → t ∉ finishedInLesson lesson →
      t ∉ availableTopicIds db lesson sid (lessonNumber db sid)) ∧
    (∀ t, t ∈ inProgressInLesson lesson ↔
      ∃ lt ∈ lesson.topics, lt.topic_id = t ∧ lt.is_finished = false) ∧
    (∀ t, t ∈ finishedInLesson lesson ↔
      ∃ lt ∈ lesson.topics, lt.topic_id = t ∧ lt.is_finished = true) := by
  refine ⟨?_, ?_, ?_, ?_, ?_⟩
  · unfold topics_view
    rw [hfind]
    simp [hsid]
  · intro t ht
    exact List.mem_append_right _ ht
  · rintro t ⟨l2, hl2, hne, hsid2, hfin⟩ hnotThis hmem
    rcases List.mem_append.mp hmem with h1 | h2
    · have hfinAll : t ∈ studentTopicIds db sid true := by
        unfold studentTopicIds
        rw [List.mem_flatten]
        refine ⟨(l2.topics.filter (fun lt => lt.is_finished = true)).map
          (fun lt => lt.topic_id), ?_, ?_⟩
        · rw [List.mem_map]
          exact ⟨l2, List.mem_filter.mpr ⟨hl2, by simp [hsid2]⟩, rfl⟩
        · unfold finishedInLesson at hfin
          rw [List.mem_map] at hfin ⊢
          obtain ⟨lt, hlt, rfl⟩ := hfin
          refine ⟨lt, List.mem_filter.mpr ⟨(List.mem_filter.mp hlt).1, ?_⟩,
            rfl⟩
          simpa using (List.mem_filter.mp hlt).2
      have hpred := (List.mem_filter.mp h1).2
      simp only [decide_eq_true_eq] at hpred
      exact hpred hfinAll
    · exact hnotThis h2
  · intro t
    simp only [inProgressInLesson, List.mem_map, List.mem_filter]
    constructor
    · rintro ⟨lt, ⟨hmem, hflag⟩, rfl⟩
      exact ⟨lt, hmem, rfl, by simpa using hflag⟩
    · rintro ⟨lt, hmem, rfl, hflag⟩
      exact ⟨lt, ⟨hmem, by simpa using hflag⟩, rfl⟩
  · intro t
    simp only [finishedInLesson, List.mem_map, List.mem_filter]
    constructor
    · rintro ⟨lt, ⟨hmem, hflag⟩, rfl⟩
      exact ⟨lt, hmem, rfl, hflag⟩
    · rintro ⟨lt, hmem, rfl, hflag⟩
      exact ⟨lt, ⟨hmem, hflag⟩, rfl⟩

/-- C6 witness: the amended property evaluated on `dbC6` at lesson 2. -/
theorem topics_view_witness :
    topics_view dbC6 2 = .ok
      (availableTopicIds dbC6 lessonT2 1 (lessonNumber dbC6 1),
        inProgressInLesson lessonT2, finishedInLesson lessonT2) ∧
    (5 ∈ finishedInLesson lessonT2 →
      5 ∈ availableTopicIds dbC6 lessonT2 1 (lessonNumber dbC6 1)) := by
  have h := topics_view_spec dbC6 2 lessonT2 1 rfl rfl
  exact ⟨h.1, h.2.1 5⟩

/-- C6 counterexample: student 1 finished topic 5 both in lesson 1 and in
lesson 2; querying lesson 2, the available set does contain topic 5 although
the student finished it in the different lesson 1, so the claim's blanket
exclusion fails. -/
theorem topics_view_counterexample :
    topics_view dbC6 2 = .ok ([5], [], [5]) ∧
    lessonT1 ∈ dbC6.lessons ∧ lessonT1.id ≠ 2 ∧
    lessonT1.student_id = some 1 ∧ 5 ∈ finishedInLesson lessonT1 ∧
    5 ∈ availableTopicIds dbC6 lessonT2 1 (lessonNumber dbC6 1) :=
  ⟨rfl, by decide, by decide, rfl, by decide, by decide⟩

/-- Every successful `get_lesson_data` result carries the approval flag of
`user.teacher` truthiness: true for a teacher-role user, false otherwise. -/
theorem get_lesson_data_ok_approved (now : Nat) (db : DB)
    (data : RequestData) (user : User) (lesson : Option Lesson)
    (ld : LessonData)
    (h : get_lesson_data now db data user lesson = .ok ld) :
    ld.is_approved = user.teacher.isSome := by
  unfold get_lesson_data at h
  cases hdd : data.date with
  | none => simp [hdd] at h
  | some d =>
    simp only [hdd] at h
    split at h
    · simp at h
    · cases hus : user.student with
      | some s =>
        simp only [hus] at h
        split at h
        · split at h
          · simp at h
          · injection h with h2
            subst h2
            rfl
        · injection h with h2
          subst h2
          rfl
      | none =>
        cases hut : user.teacher with
        | some t =>
          simp only [hus, hut] at h
          split at h
          · simp at h
          · injection h with h2
            subst h2
            simp [mkLessonData, hut]
        | none => simp [hus, hut] at h

/-- C1 (amended): the at-most-one-approved-lesson-per-date invariant is
preserved by `approve_lesson` (thanks to its conflict check) and by
`delete_lesson`, and by `new_lesson` and `update_lesson` when the requesting
user has no teacher role (their lessons come out unapproved); the
teacher-initiated create path carries no conflict check and does not
preserve it. -/
theorem lifecycle_invariant_amended :
    (∀ (db : DB) (t : Teacher) (lid : Nat) (db2 : DB), uniqueIds db →
      approvedUnique db → approve_lesson db t lid = .ok db2 →
      approvedUnique db2) ∧
    (∀ (db : DB) (u : User) (lid : Nat) (db2 : DB),
      approvedUnique db → delete_lesson db lid u = .ok db2 →
      approvedUnique db2) ∧
    (∀ (now : Nat) (db : DB) (data : RequestData) (u : User) (db2 : DB)
      (l : Lesson), u.teacher = none → approvedUnique db →
      new_lesson now db data u = .ok (db2, l) → approvedUnique db2) ∧
    (∀ (now : Nat) (db : DB) (data : RequestData) (u : User) (lid : Nat)
      (db2 : DB), u.teacher = none → approvedUnique db →
      update_lesson now db lid data u = .ok db2 → approvedUnique db2) := by
  refine ⟨?_, ?_, ?_, ?_⟩
  · intro db t lid db2 hu hinv happ
    unfold approve_lesson at happ
    cases hf : findLesson (db.lessons.filter
        (fun l => l.teacher_id = t.id)) lid with
    | none => simp [hf] at happ
    | some lesson =>
      rw [hf] at happ
      simp only [] at happ
      cases hc : db.lessons.find? (fun l2 =>
          l2.date = lesson.date ∧ l2.id ≠ lesson.id ∧ l2.is_approved) with
      | some c =>
        rw [hc] at happ
        exact absurd happ (by simp)
      | none =>
        rw [hc] at happ
        simp only [] at happ
        injection happ with h2
        subst h2
        have hlmem : lesson ∈ db.lessons :=
          (List.mem_filter.mp (List.mem_of_find?_eq_some hf)).1
        have hnoconf := List.find?_eq_none.mp hc
        intro x1 h1 x2 h2 ha1 ha2 hdate
        obtain ⟨y1, hy1, hx1⟩ := List.mem_map.mp h1
        obtain ⟨y2, hy2, hx2⟩ := List.mem_map.mp h2
        by_cases hb1 : y1.id = lesson.id
        · have e1 : y1 = lesson := pairwise_id_eq hu hy1 hlmem hb1
          have hx1d : x1.date = lesson.date := by
            rw [← hx1]
            simp [e1]
          by_cases hb2 : y2.id = lesson.id
          · have e2 : y2 = lesson := pairwise_id_eq hu hy2 hlmem hb2
            rw [← hx1, ← hx2]
            simp only [e1, e2]
          · exfalso
            have hx2e : x2 = y2 := by
              rw [← hx2]
              simp only [if_neg hb2]
            have hcf := hnoconf y2 hy2
            simp only [decide_eq_true_eq] at hcf
            refine hcf ⟨?_, hb2, ?_⟩
            · rw [← hx2e, ← hdate, hx1d]
            · rw [← hx2e]
              exact ha2
        · have hx1e : x1 = y1 := by
            rw [← hx1]
            simp only [if_neg hb1]
          by_cases hb2 : y2.id = lesson.id
          · exfalso
            have e2 : y2 = lesson := pairwise_id_eq hu hy2 hlmem hb2
            have hx2d : x2.date = lesson.date := by
              rw [← hx2]
              simp [e2]
            have hcf := hnoconf y1 hy1
            simp only [decide_eq_true_eq] at hcf
            refine hcf ⟨?_, hb1, ?_⟩
            · rw [← hx1e, hdate, hx2d]
            · rw [← hx1e]
              exact ha1
          · have hx2e : x2 = y2 := by
              rw [← hx2]
              simp only [if_neg hb2]
            rw [hx1e, hx2e]
            refine hinv y1 hy1 y2 hy2 ?_ ?_ ?_
            · rw [← hx1e]
              exact ha1
            · rw [← hx2e]
              exact ha2
            · rw [← hx1e, ← hx2e]
              exact hdate
  · intro db u lid db2 hinv hdel
    unfold delete_lesson at hdel
    cases hf : findLesson (u.ownLessons db) lid with
    | none => simp [hf] at hdel
    | some l =>
      simp only [hf] at hdel
      injection hdel with h2
      subst h2
      intro x1 h1 x2 h2 ha1 ha2 hdate
      obtain ⟨y1, hy1, hx1⟩ := List.mem_map.mp h1
      obtain ⟨y2, hy2, hx2⟩ := List.mem_map.mp h2
      have hfields : ∀ y : Lesson,
          (if y.id = l.id then { y with deleted := true } else y).id = y.id ∧
          (if y.id = l.id then { y with deleted := true } else y).date =
            y.date ∧
          (if y.id = l.id then { y with deleted := true }
            else y).is_approved = y.is_approved := by
        intro y
        by_cases hb : y.id = l.id <;> simp [hb]
      obtain ⟨hi1, hd1, hap1⟩ := hfields y1
      obtain ⟨hi2, hd2, hap2⟩ := hfields y2
      rw [← hx1] at ha1 hdate ⊢
      rw [← hx2] at ha2 hdate ⊢
      rw [hi1, hi2]
      rw [hap1] at ha1
      rw [hap2] at ha2
      rw [hd1, hd2] at hdate
      exact hinv y1 hy1 y2 hy2 ha1 ha2 hdate
  · intro now db data u db2 l hut hinv hnew
    unfold new_lesson at hnew
    cases hdd : data.date with
    | none => simp [hdd] at hnew
    | some d =>
      simp only [hdd] at hnew
      cases hg : get_lesson_data now db data u none with
      | error e => simp [hg] at hnew
      | ok ld =>
        simp only [hg] at hnew
        have happld : ld.is_approved = false := by
          rw [get_lesson_data_ok_approved now db data u none ld hg, hut]
          rfl
        unfold Lesson.create at hnew
        injection hnew with h2
        rw [Prod.mk.injEq] at h2
        obtain ⟨h3, _⟩ := h2
        subst h3
        intro x1 h1 x2 h2 ha1 ha2 hdate
        rcases List.mem_append.mp h1 with hm1 | hm1
        · rcases List.mem_append.mp h2 with hm2 | hm2
          · exact hinv x1 hm1 x2 hm2 ha1 ha2 hdate
          · exfalso
            have : x2.is_approved = ld.is_approved := by
              rcases List.mem_singleton.mp hm2 with rfl
              rfl
            rw [happld] at this
            rw [this] at ha2
            cases ha2
        · exfalso
          have : x1.is_approved = ld.is_approved := by
            rcases List.mem_singleton.mp hm1 with rfl
            rfl
          rw [happld] at this
          rw [this] at ha1
          cases ha1
  · intro now db data u lid db2 hut hinv hupd
    unfold update_lesson at hupd
    cases hf : findLesson (u.ownLessons db) lid with
    | none => simp [hf] at hupd
    | some l0 =>
      simp only [hf] at hupd
      cases hg : get_lesson_data now db data u (some l0) with
      | error e => simp [hg] at hupd
      | ok ld =>
        simp only [hg] at hupd
        injection hupd with h2
        subst h2
        have happld : ld.is_approved = false := by
          rw [get_lesson_data_ok_approved now db data u (some l0) ld hg, hut]
          rfl
        intro x1 h1 x2 h2 ha1 ha2 hdate
        obtain ⟨y1, hy1, hx1⟩ := List.mem_map.mp h1
        obtain ⟨y2, hy2, hx2⟩ := List.mem_map.mp h2
        have hkeep : ∀ y x : Lesson,
            (if y.id = l0.id then y.applyData ld else y) = x →
            x.is_approved = true → x = y := by
          intro y x hx hxa
          by_cases hb : y.id = l0.id
          · rw [if_pos hb] at hx
            exfalso
            rw [← hx] at hxa
            have : (y.applyData ld).is_approved = ld.is_approved := rfl
            rw [happld] at this
            rw [this] at hxa
            cases hxa
          · rw [if_neg hb] at hx
            exact hx.symm
        have he1 : x1 = y1 := hkeep y1 x1 hx1 ha1
        have he2 : x2 = y2 := hkeep y2 x2 hx2 ha2
        subst he1
        subst he2
        exact hinv x1 hy1 x2 hy2 ha1 ha2 hdate

/-- C1 witness: on the one-pending-lesson store `dbOne`, an approval, a
deletion, a student-initiated create and a student-initiated update all
leave the invariant intact. -/
theorem lifecycle_invariant_witness :
    approvedUnique (dbOne.updateLesson 1
      (fun x => { x with is_approved := true })) ∧
    approvedUnique (dbOne.updateLesson 1
      (fun x => { x with deleted := true })) ∧
    approvedUnique { dbOne with
      lessons := dbOne.lessons ++ [lessonNewW], nextId := 3 } ∧
    approvedUnique (dbOne.updateLesson 1 (fun x => x.applyData
      (mkLessonData 100 studentA teacherA 40 (reqAt 100) userStudentA))) := by
  have huniq : uniqueIds dbOne := by
    unfold uniqueIds dbOne
    simp
  have hinv : approvedUnique dbOne := by
    intro l1 h1 l2 h2 ha1 ha2 hd
    simp [dbOne] at h1 h2
    subst h1
    subst h2
    rfl
  refine ⟨?_, ?_, ?_, ?_⟩
  · exact lifecycle_invariant_amended.1 dbOne teacherA 1 _ huniq hinv rfl
  · exact lifecycle_invariant_amended.2.1 dbOne userTeacherA 1 _ hinv rfl
  · exact lifecycle_invariant_amended.2.2.1 60 dbOne (reqAt 100) userStudentA
      _ _ rfl hinv rfl
  · exact lifecycle_invariant_amended.2.2.2 60 dbOne (reqAt 100) userStudentA
      1 _ rfl hinv rfl

/-- C1 counterexample: `dbApprove` satisfies the invariant (only its lesson
1 is approved, at date 100), yet teacher 1 creating a new lesson at date 100
succeeds and yields a store with two approved lessons at date 100, so the
create operation does not preserve the invariant. -/
theorem lifecycle_invariant_counterexample :
    approvedUnique dbApprove ∧
    new_lesson 50 dbApprove (reqAt 100) userTeacherA =
      .ok ({ dbApprove with
        lessons := dbApprove.lessons ++ [lessonClash], nextId := 5 },
        lessonClash) ∧
    ¬ approvedUnique { dbApprove with
      lessons := dbApprove.lessons ++ [lessonClash], nextId := 5 } := by
  refine ⟨?_, rfl, ?_⟩
  · intro l1 h1 l2 h2 ha1 ha2 hd
    simp [dbApprove] at h1 h2
    rcases h1 with rfl | rfl | rfl <;> rcases h2 with rfl | rfl | rfl <;>
      simp_all [mkLesson]
  · intro h
    have := h (mkLesson 1 100 1 (some 1) true)
      (by simp [dbApprove]) lessonClash (by simp [dbApprove]) rfl rfl rfl
    simp [mkLesson, lessonClash] at this

end Dryvo
